import Mathlib

/-!
# Verification of the FLAC frame decoder (`sonata-codecs-flac/src/framing.rs`)

Shallow embedding of the frame-decoding core. Machine integers are modelled as
`Nat` / `Int` with explicit reduction modulo `2^32` (resp. `2^16`, `2^64`):
`i32` values are integers in `[-2^31, 2^31)` and every primitive arithmetic
operation of the source is embedded with two's-complement wraparound semantics
(the behaviour of the compiled Rust code with overflow checks disabled).
Byte streams are lists of naturals (each byte taken mod 256), bit streams are
lists of booleans (most-significant bit first).  Fallible operations return a
`DecodeResult`, distinguishing decode errors, unsupported-feature errors, I/O
(end-of-stream) errors, and contract violations / panics.

External collaborators that live outside `framing.rs` (the CRC-8 checksum, the
bit reader primitives, `utf8_decode_be_u64`, `sign_extend_leq32_to_i32`) are
modelled from the specification, as noted on each definition.
-/

namespace FlacFraming

/-- Two's-complement wraparound of an integer into the `i32` range
`[-2^31, 2^31)`.  This is the semantics of Rust `i32` arithmetic with
overflow checks disabled (`std::num::Wrapping`, `wrapping_shl`, release-mode
`+`/`*`/`<<`). -/
def wrap32 (z : Int) : Int :=
  (z + 2147483648) % 4294967296 - 2147483648

/-- The 32-bit unsigned representation (two's complement) of an `i32` value. -/
def toU32 (z : Int) : Nat :=
  (z % 4294967296).toNat

/-- Reinterpret a 32-bit unsigned representation as a signed `i32` value. -/
def ofU32 (n : Nat) : Int :=
  if n < 2147483648 then (n : Int) else (n : Int) - 4294967296

/-- Bitwise XOR on `i32` values (Rust `^` on `i32`), via the unsigned
representations. -/
def i32Xor (a b : Int) : Int :=
  ofU32 ((toU32 a) ^^^ (toU32 b))

/-- Bitwise AND on `i32` values (Rust `&` on `i32`). -/
def i32And (a b : Int) : Int :=
  ofU32 ((toU32 a) &&& (toU32 b))

/-- Bitwise OR on `i32` values (Rust `|` on `i32`). -/
def i32Or (a b : Int) : Int :=
  ofU32 ((toU32 a) ||| (toU32 b))

/-- Wrapping `i32` addition. -/
def wadd (a b : Int) : Int :=
  wrap32 (a + b)

/-- Wrapping `i32` subtraction. -/
def wsub (a b : Int) : Int :=
  wrap32 (a - b)

/-- Wrapping `i32` multiplication. -/
def wmul (a b : Int) : Int :=
  wrap32 (a * b)

/-- `rice_signed_to_i32` from `framing.rs`: maps an unsigned Rice codeword to
a signed residual.  `div2 = (word >> 1) as i32`, `sign = -((word & 0x1) as
i32)`, result `div2 ^ sign`. -/
def rice_signed_to_i32 (word : Nat) : Int :=
  let div2 : Int := ((word >>> 1 : Nat) : Int)
  let sign : Int := -(((word &&& 1 : Nat) : Int))
  i32Xor div2 sign

theorem natXor_allOnes {w n : Nat} (h : n < 2 ^ w) :
    n ^^^ (2 ^ w - 1) = 2 ^ w - 1 - n := by
  apply Nat.eq_of_testBit_eq
  intro i
  have h1 : 2 ^ w - 1 - n = 2 ^ w - (n + 1) := by omega
  rw [Nat.testBit_xor, Nat.testBit_two_pow_sub_one, h1,
    Nat.testBit_two_pow_sub_succ h]
  by_cases hi : i < w
  · simp [hi]
  · have hn : n < 2 ^ i :=
      lt_of_lt_of_le h (Nat.pow_le_pow_right (by norm_num) (le_of_not_lt hi))
    simp [hi, Nat.testBit_lt_two_pow hn]

theorem toU32_ofNat {n : Nat} (h : n < 4294967296) : toU32 (n : Int) = n := by
  unfold toU32
  rw [Int.emod_eq_of_lt (by positivity) (by exact_mod_cast h)]
  exact Int.toNat_ofNat n

theorem toU32_neg_one : toU32 (-1) = 4294967295 := by decide

/-- C1: the zig-zag inverse computed by `rice_signed_to_i32`, in exact integer
arithmetic: even codewords map to `codeword / 2`, odd codewords map to
`-(codeword + 1) / 2`, and `0xFFFFFFFF` maps to `i32::MIN`. -/
theorem rice_signed_to_i32_zigzag (w : Nat) (h : w < 4294967296) :
    (w % 2 = 0 → rice_signed_to_i32 w = ((w / 2 : Nat) : Int)) ∧
    (w % 2 = 1 → rice_signed_to_i32 w = -(((w + 1) / 2 : Nat) : Int)) ∧
    rice_signed_to_i32 4294967295 = -2147483648 := by
  have hdiv : w >>> 1 = w / 2 := by
    rw [Nat.shiftRight_eq_div_pow]
  have hand : w &&& 1 = w % 2 := Nat.and_one_is_mod w
  have hd2 : w / 2 < 2147483648 := by omega
  refine ⟨?_, ?_, by decide⟩
  · intro he
    simp only [rice_signed_to_i32, i32Xor]
    rw [hdiv, hand, he]
    rw [show -(((0 : Nat) : Int)) = 0 by norm_num]
    rw [toU32_ofNat (by omega)]
    rw [show toU32 0 = 0 from rfl, Nat.xor_zero]
    unfold ofU32
    rw [if_pos hd2]
  · intro ho
    simp only [rice_signed_to_i32, i32Xor]
    rw [hdiv, hand, ho]
    rw [show -(((1 : Nat) : Int)) = -1 by norm_num]
    rw [toU32_ofNat (by omega), toU32_neg_one]
    have hx : w / 2 ^^^ 4294967295 = 4294967295 - w / 2 := by
      have h32 : w / 2 < 2 ^ 32 := by omega
      have := natXor_allOnes (w := 32) h32
      norm_num at this
      exact this
    rw [hx]
    unfold ofU32
    rw [if_neg (by omega)]
    have h2 : (w + 1) / 2 = w / 2 + 1 := by omega
    rw [h2]
    omega

/-- Witness for C1 at the concrete odd codeword 9 (expected output -5). -/
theorem rice_signed_to_i32_zigzag_witness :
    (9 : Nat) < 4294967296 ∧ rice_signed_to_i32 9 = -(((9 + 1) / 2 : Nat) : Int) :=
  ⟨by decide, (rice_signed_to_i32_zigzag 9 (by decide)).2.1 (by decide)⟩

theorem wrap32_eq_self {z : Int} (h1 : -2147483648 ≤ z) (h2 : z < 2147483648) :
    wrap32 z = z := by
  unfold wrap32
  rw [Int.emod_eq_of_lt (by omega) (by omega)]
  omega

theorem ofU32_toU32 {z : Int} (h1 : -2147483648 ≤ z) (h2 : z < 2147483648) :
    ofU32 (toU32 z) = z := by
  unfold ofU32 toU32
  split <;> omega

theorem i32And_one (s : Int) : i32And s 1 = s % 2 := by
  unfold i32And
  rw [show toU32 1 = 1 from rfl, Nat.and_one_is_mod]
  unfold ofU32 toU32
  split <;> omega

theorem even_lor_one {n : Nat} (h : n % 2 = 0) : n ||| 1 = n + 1 := by
  apply Nat.eq_of_testBit_eq
  intro i
  cases i with
  | zero =>
    rw [Nat.testBit_or]
    simp only [Nat.testBit_zero]
    have h1 : (n + 1) % 2 = 1 := by omega
    simp [h1]
  | succ j =>
    have hp : 1 < 2 ^ (j + 1) := by
      have hpos : 0 < 2 ^ j := Nat.pos_pow_of_pos j (by omega)
      have hs : 2 ^ (j + 1) = 2 ^ j * 2 := pow_succ 2 j
      omega
    have h1 : (1 : Nat).testBit (j + 1) = false := Nat.testBit_lt_two_pow hp
    rw [Nat.testBit_or, h1, Bool.or_false, Nat.testBit_succ, Nat.testBit_succ,
      show (n + 1) / 2 = n / 2 by omega]

theorem i32Or_even {e b : Int} (he : e % 2 = 0) (hb : b = 0 ∨ b = 1)
    (h1 : -2147483648 ≤ e) (h2 : e < 2147483648) :
    i32Or e b = e + b := by
  rcases hb with hb | hb
  · subst hb
    unfold i32Or
    rw [show toU32 0 = 0 from rfl, Nat.or_zero]
    rw [ofU32_toU32 h1 h2]
    omega
  · subst hb
    unfold i32Or
    rw [show toU32 1 = 1 from rfl]
    have heven : toU32 e % 2 = 0 := by
      unfold toU32
      omega
    rw [even_lor_one heven]
    have hsucc : toU32 e + 1 = toU32 (e + 1) := by
      unfold toU32
      omega
    rw [hsucc, ofU32_toU32 (by omega) (by omega)]

/-- `decorrelate_mid_side` from `framing.rs`, pointwise: `mid = (*m << 1) |
(*s & 1); side = *s; *m = (mid + side) >> 1; *s = (mid - side) >> 1`.
`>> 1` on `i32` is an arithmetic shift, i.e. floor division by 2 (`Int`
euclidean division by the positive constant 2). -/
def midSidePoint (m s : Int) : Int × Int :=
  let mid := i32Or (wrap32 (m * 2)) (i32And s 1)
  let side := s
  ((wadd mid side) / 2, (wsub mid side) / 2)

/-- `decorrelate_mid_side` from `framing.rs`: the in-place loop over
`mid.iter_mut().zip(side)`, as a pair of pointwise-updated buffers. -/
def decorrelate_mid_side (mid side : List Int) : List Int × List Int :=
  (List.zipWith (fun m s => (midSidePoint m s).1) mid side,
   List.zipWith (fun m s => (midSidePoint m s).2) mid side)

/-- C5: Mid/Side decorrelation computes `doubled_mid = (mid<<1) | (side & 1)`,
`left = (doubled_mid + side) >> 1`, `right = (doubled_mid - side) >> 1`; this
is exact for even and odd side values (round-trip from any left/right channel
pair whose samples avoid `i32` overflow of the doubled mid), and in particular
`mid = 10, side = 3` yields `left = 12, right = 9`. -/
theorem decorrelate_mid_side_exact (L R : Int)
    (hL1 : -1073741824 ≤ L) (hL2 : L < 1073741824)
    (hR1 : -1073741824 ≤ R) (hR2 : R < 1073741824) :
    decorrelate_mid_side [10] [3] = ([12], [9]) ∧
    midSidePoint ((L + R) / 2) (L - R) = (L, R) := by
  refine ⟨by decide, ?_⟩
  simp only [midSidePoint, wadd, wsub]
  rw [i32And_one]
  rw [wrap32_eq_self (z := (L + R) / 2 * 2) (by omega) (by omega)]
  rw [i32Or_even (by omega) (by omega) (by omega) (by omega)]
  rw [wrap32_eq_self (by omega) (by omega), wrap32_eq_self (by omega) (by omega)]
  simp only [Prod.mk.injEq]
  constructor <;> omega

/-- Witness for C5 at the concrete channel pair `L = 12, R = 9`. -/
theorem decorrelate_mid_side_exact_witness :
    decorrelate_mid_side [10] [3] = ([12], [9]) ∧
    midSidePoint ((12 + 9) / 2) (12 - 9) = (12, 9) :=
  ⟨(decorrelate_mid_side_exact 12 9 (by decide) (by decide) (by decide) (by decide)).1,
   (decorrelate_mid_side_exact 12 9 (by decide) (by decide) (by decide) (by decide)).2⟩

/-- In-place predictor loop: starting at index `i`, repeatedly replace
`buf[i]` by `step buf i` (where `step` sees the partially updated buffer,
exactly like the in-place Rust loops) and advance; `fuel` is the number of
remaining iterations. -/
def predictLoop (step : List Int → Nat → Int) : Nat → Nat → List Int → List Int
  | 0, _, buf => buf
  | fuel + 1, i, buf => predictLoop step fuel (i + 1) (buf.set i (step buf i))

/-- Loop body of `fixed_predict`, order 1: `buf[i] += buf[i - 1]`. -/
def fixedStep1 (buf : List Int) (i : Nat) : Int :=
  wadd (buf.getD i 0) (buf.getD (i - 1) 0)

/-- Loop body of `fixed_predict`, order 2: `buf[i] +=` the `Wrapping` sum of
`[-1, 2]` zipped with `buf[i-2..i]` (products taken in `i32`, summed with
wrapping addition starting from 0). -/
def fixedStep2 (buf : List Int) (i : Nat) : Int :=
  wadd (buf.getD i 0)
    (wadd (wadd 0 (wmul (-1) (buf.getD (i - 2) 0))) (wmul 2 (buf.getD (i - 1) 0)))

/-- Loop body of `fixed_predict`, order 3: coefficients `[1, -3, 3]` against
`buf[i-3..i]`. -/
def fixedStep3 (buf : List Int) (i : Nat) : Int :=
  wadd (buf.getD i 0)
    (wadd (wadd (wadd 0 (wmul 1 (buf.getD (i - 3) 0))) (wmul (-3) (buf.getD (i - 2) 0)))
      (wmul 3 (buf.getD (i - 1) 0)))

/-- Loop body of `fixed_predict`, order 4: coefficients `[-1, 4, -6, 4]`
against `buf[i-4..i]`. -/
def fixedStep4 (buf : List Int) (i : Nat) : Int :=
  wadd (buf.getD i 0)
    (wadd (wadd (wadd (wadd 0 (wmul (-1) (buf.getD (i - 4) 0))) (wmul 4 (buf.getD (i - 3) 0)))
      (wmul (-6) (buf.getD (i - 2) 0)))
      (wmul 4 (buf.getD (i - 1) 0)))

/-- `fixed_predict` from `framing.rs`: order 0 does nothing; orders 1-4 run
the in-place recurrence from index `order` to the end of the buffer.  Orders
above 4 are `unreachable!()` in the source (callers reject them first); the
embedding returns the buffer unchanged there. -/
def fixed_predict (order : Nat) (buf : List Int) : List Int :=
  match order with
  | 0 => buf
  | 1 => predictLoop fixedStep1 (buf.length - 1) 1 buf
  | 2 => predictLoop fixedStep2 (buf.length - 2) 2 buf
  | 3 => predictLoop fixedStep3 (buf.length - 3) 3 buf
  | 4 => predictLoop fixedStep4 (buf.length - 4) 4 buf
  | _ => buf

/-- Follows the spec's words (§4.4), for comparison with `fixed_predict`:
order 0 identity; order 1 `s[i] += s[i-1]`; order 2 `s[i] += 2·s[i-1] −
s[i-2]`; order 3 `s[i] += 3·s[i-1] − 3·s[i-2] + s[i-3]`; order 4 `s[i] +=
4·s[i-1] − 6·s[i-2] + 4·s[i-3] − s[i-4]`; all arithmetic 32-bit with silent
wraparound. -/
def fixedPredictSpec (order : Nat) (buf : List Int) : List Int :=
  match order with
  | 0 => buf
  | 1 => predictLoop
      (fun b i => wrap32 (b.getD i 0 + b.getD (i - 1) 0)) (buf.length - 1) 1 buf
  | 2 => predictLoop
      (fun b i => wrap32 (b.getD i 0 + 2 * b.getD (i - 1) 0 - b.getD (i - 2) 0))
      (buf.length - 2) 2 buf
  | 3 => predictLoop
      (fun b i => wrap32 (b.getD i 0 + 3 * b.getD (i - 1) 0 - 3 * b.getD (i - 2) 0
        + b.getD (i - 3) 0))
      (buf.length - 3) 3 buf
  | 4 => predictLoop
      (fun b i => wrap32 (b.getD i 0 + 4 * b.getD (i - 1) 0 - 6 * b.getD (i - 2) 0
        + 4 * b.getD (i - 3) 0 - b.getD (i - 4) 0))
      (buf.length - 4) 4 buf
  | _ => buf

theorem predictLoop_congr {f g : List Int → Nat → Int} (h : ∀ b j, f b j = g b j) :
    ∀ fuel i buf, predictLoop f fuel i buf = predictLoop g fuel i buf := by
  intro fuel
  induction fuel with
  | zero => intro i buf; rfl
  | succ n ih =>
    intro i buf
    simp only [predictLoop]
    rw [h]
    exact ih (i + 1) _

theorem fixedStep2_eq (b : List Int) (i : Nat) :
    fixedStep2 b i = wrap32 (b.getD i 0 + 2 * b.getD (i - 1) 0 - b.getD (i - 2) 0) := by
  simp only [fixedStep2, wadd, wmul, wrap32]
  omega

theorem fixedStep3_eq (b : List Int) (i : Nat) :
    fixedStep3 b i = wrap32 (b.getD i 0 + 3 * b.getD (i - 1) 0 - 3 * b.getD (i - 2) 0
      + b.getD (i - 3) 0) := by
  simp only [fixedStep3, wadd, wmul, wrap32]
  omega

theorem fixedStep4_eq (b : List Int) (i : Nat) :
    fixedStep4 b i = wrap32 (b.getD i 0 + 4 * b.getD (i - 1) 0 - 6 * b.getD (i - 2) 0
      + 4 * b.getD (i - 3) 0 - b.getD (i - 4) 0) := by
  simp only [fixedStep4, wadd, wmul, wrap32]
  omega

/-- C2: for every order 0-4 and every input buffer, `fixed_predict` computes
exactly the documented polynomial recurrences, with every arithmetic step
(including the final addition of the prediction to the residual) reduced into
32-bit two's complement. -/
theorem fixed_predict_matches_spec (order : Nat) (h : order ≤ 4) (buf : List Int) :
    fixed_predict order buf = fixedPredictSpec order buf := by
  match order, h with
  | 0, _ =>
    rw [show fixed_predict 0 buf = buf from rfl,
      show fixedPredictSpec 0 buf = buf from rfl]
  | 1, _ =>
    simp only [fixed_predict, fixedPredictSpec]
    exact predictLoop_congr (fun b j => rfl) _ _ _
  | 2, _ =>
    simp only [fixed_predict, fixedPredictSpec]
    exact predictLoop_congr fixedStep2_eq _ _ _
  | 3, _ =>
    simp only [fixed_predict, fixedPredictSpec]
    exact predictLoop_congr fixedStep3_eq _ _ _
  | 4, _ =>
    simp only [fixed_predict, fixedPredictSpec]
    exact predictLoop_congr fixedStep4_eq _ _ _

/-- Witness for C2 at order 4 on a concrete six-sample buffer. -/
theorem fixed_predict_matches_spec_witness :
    4 ≤ 4 ∧ fixed_predict 4 [1, 2, 3, 4, 5, 6] = fixedPredictSpec 4 [1, 2, 3, 4, 5, 6] :=
  ⟨by decide, fixed_predict_matches_spec 4 (by decide) [1, 2, 3, 4, 5, 6]⟩

/-- Result of a fallible decoding step: success, a malformed-bitstream decode
error, an unsupported-feature error, an I/O (end-of-stream) error from the
underlying reader, or a panic / reader-contract violation. -/
inductive DecodeResult (α : Type) where
  | ok : α → DecodeResult α
  | decodeErr : String → DecodeResult α
  | unsupportedErr : String → DecodeResult α
  | ioErr : DecodeResult α
  | panicked : DecodeResult α
  deriving DecidableEq

/-- Sequencing of fallible decoding steps (Rust `?` propagation). -/
def DecodeResult.bind {α β : Type} : DecodeResult α → (α → DecodeResult β) → DecodeResult β
  | .ok a, f => f a
  | .decodeErr m, _ => .decodeErr m
  | .unsupportedErr m, _ => .unsupportedErr m
  | .ioErr, _ => .ioErr
  | .panicked, _ => .panicked

/-- Modelled from the spec: one shift-and-reduce round of the external CRC-8
used for frame headers (polynomial `x^8 + x^2 + x + 1`, i.e. 0x07). -/
def crc8Round (c : Nat) : Nat :=
  if c < 128 then (c * 2) % 256 else ((c * 2) % 256) ^^^ 7

/-- Modelled from the spec: the external `Crc8` checksum update for one byte
(MSB-first, initial value 0). -/
def crc8Update (c b : Nat) : Nat :=
  crc8Round (crc8Round (crc8Round (crc8Round (crc8Round (crc8Round (crc8Round
    (crc8Round ((c ^^^ b) % 256))))))))

/-- CRC-8 accumulated over a byte list from state `c`. -/
def crc8Bytes (c : Nat) (bs : List Nat) : Nat :=
  bs.foldl crc8Update c

/-- State of the CRC-8-accumulating byte reader (`ErrorDetectingStream` around
the frame-header bytes): remaining bytes plus running checksum. -/
structure ByteCrcState where
  bytes : List Nat
  crc : Nat
  deriving DecidableEq

/-- Modelled from the spec: the external byte reader's `read_u8`, through the
CRC-8 accumulator. -/
def readU8 (s : ByteCrcState) : DecodeResult (Nat × ByteCrcState) :=
  match s.bytes with
  | [] => .ioErr
  | b :: rest => .ok (b % 256, ⟨rest, crc8Update s.crc (b % 256)⟩)

/-- Modelled from the spec: the external byte reader's big-endian `read_be_u16`,
through the CRC-8 accumulator. -/
def readBeU16 (s : ByteCrcState) : DecodeResult (Nat × ByteCrcState) :=
  (readU8 s).bind fun p1 =>
    (readU8 p1.2).bind fun p2 =>
      .ok (p1.1 * 256 + p2.1, p2.2)

/-- Modelled from the spec: `to_inner().read_u8()` — a raw byte read bypassing
the CRC-8 accumulator (used to fetch the expected CRC byte itself). -/
def readU8Raw (s : ByteCrcState) : DecodeResult (Nat × ByteCrcState) :=
  match s.bytes with
  | [] => .ioErr
  | b :: rest => .ok (b % 256, ⟨rest, s.crc⟩)

/-- The synchronization scan of `read_frame_header`: read big-endian 16-bit
words (through the CRC-8 accumulator, which is never reset) until one masked
with `0xfffc` equals `0xfff8`. -/
def syncScan : Nat → List Nat → DecodeResult (Nat × ByteCrcState)
  | crc, b0 :: b1 :: rest =>
    let w := (b0 % 256) * 256 + (b1 % 256)
    let crc1 := crc8Update (crc8Update crc (b0 % 256)) (b1 % 256)
    if w &&& 0xfffc = 0xfff8 then .ok (w, ⟨rest, crc1⟩) else syncScan crc1 rest
  | _, _ => .ioErr

/-- Number of leading one-bits of a byte. -/
def leadingOnes8 (b : Nat) : Nat :=
  if b < 128 then 0
  else if b < 192 then 1
  else if b < 224 then 2
  else if b < 240 then 3
  else if b < 248 then 4
  else if b < 252 then 5
  else if b < 254 then 6
  else if b = 254 then 7
  else 8

/-- Modelled from the spec: continuation-byte loop of the external
`utf8_decode_be_u64` (each continuation byte must be `0b10xxxxxx`, six payload
bits each; a malformed continuation byte yields `none`). -/
def utf8ContBytes : Nat → Nat → ByteCrcState → DecodeResult (Option Nat × ByteCrcState)
  | 0, v, s => .ok (some v, s)
  | k + 1, v, s =>
    (readU8 s).bind fun p =>
      if p.1 &&& 0xc0 = 0x80 then utf8ContBytes k (v * 64 + (p.1 &&& 0x3f)) p.2
      else .ok (none, p.2)

/-- Modelled from the spec: the external `utf8_decode_be_u64` — a
variable-length big-endian integer in the style of multi-byte UTF-8. The
number of leading ones of the first byte selects the total length (0 ones: one
byte; 2-7 ones: that many bytes); a lone continuation marker (1 leading one)
or 0xFF is malformed and decodes to `none` (wrapped in `Ok`). -/
def utf8_decode_be_u64 (s : ByteCrcState) : DecodeResult (Option Nat × ByteCrcState) :=
  (readU8 s).bind fun p =>
    let n := leadingOnes8 p.1
    if n = 0 then .ok (some p.1, p.2)
    else if n = 1 ∨ n = 8 then .ok (none, p.2)
    else utf8ContBytes (n - 1) (p.1 &&& (2 ^ (7 - n) - 1)) p.2

inductive BlockingStrategy where
  | fixedBlocks
  | variableBlocks
  deriving DecidableEq

inductive BlockSequence where
  | bySample : Nat → BlockSequence
  | byFrame : Nat → BlockSequence
  deriving DecidableEq

inductive ChannelAssignment where
  | independant : Nat → ChannelAssignment
  | leftSide
  | rightSide
  | midSide
  deriving DecidableEq

structure FrameHeader where
  blocking_strategy : BlockingStrategy
  block_sequence : BlockSequence
  block_num_samples : Nat
  sample_rate : Option Nat
  channel_assignment : ChannelAssignment
  bits_per_sample : Option Nat
  deriving DecidableEq

/-- The `block_num_samples` match of `read_frame_header` (u16 arithmetic:
the stored value is reduced mod 2^16, as in the Rust `u16` additions). -/
def resolveBlockSize (enc : Nat) (s : ByteCrcState) : DecodeResult (Nat × ByteCrcState) :=
  if enc = 0x1 then .ok (192, s)
  else if 0x2 ≤ enc ∧ enc ≤ 0x5 then .ok (576 * 2 ^ (enc - 2), s)
  else if enc = 0x6 then (readU8 s).bind fun p => .ok ((p.1 + 1) % 65536, p.2)
  else if enc = 0x7 then (readBeU16 s).bind fun p => .ok ((p.1 + 1) % 65536, p.2)
  else if 0x8 ≤ enc ∧ enc ≤ 0xf then .ok (256 * 2 ^ (enc - 8), s)
  else .decodeErr "Block size set to reserved value."

/-- The `sample_rate` match of `read_frame_header`, followed by the
out-of-bounds check on any resolved rate. -/
def resolveSampleRate (enc : Nat) (s : ByteCrcState) : DecodeResult (Option Nat × ByteCrcState) :=
  let r : DecodeResult (Option Nat × ByteCrcState) :=
    if enc = 0x0 then .ok (none, s)
    else if enc = 0x1 then .ok (some 88200, s)
    else if enc = 0x2 then .ok (some 176400, s)
    else if enc = 0x3 then .ok (some 192000, s)
    else if enc = 0x4 then .ok (some 8000, s)
    else if enc = 0x5 then .ok (some 16000, s)
    else if enc = 0x6 then .ok (some 22050, s)
    else if enc = 0x7 then .ok (some 24000, s)
    else if enc = 0x8 then .ok (some 32000, s)
    else if enc = 0x9 then .ok (some 44100, s)
    else if enc = 0xa then .ok (some 48000, s)
    else if enc = 0xb then .ok (some 96000, s)
    else if enc = 0xc then (readU8 s).bind fun p => .ok (some p.1, p.2)
    else if enc = 0xd then (readBeU16 s).bind fun p => .ok (some p.1, p.2)
    else if enc = 0xe then (readBeU16 s).bind fun p => .ok (some (p.1 * 10), p.2)
    else .decodeErr "Sample rate set to reserved value."
  r.bind fun p =>
    match p.1 with
    | some v =>
      if v < 1 ∨ 655350 < v then .decodeErr "Sample rate out of bounds."
      else .ok (some v, p.2)
    | none => .ok (none, p.2)

/-- The `bits_per_sample` match of `read_frame_header`. -/
def resolveBitsPerSample (enc : Nat) : DecodeResult (Option Nat) :=
  if enc = 0x0 then .ok none
  else if enc = 0x1 then .ok (some 8)
  else if enc = 0x2 then .ok (some 12)
  else if enc = 0x4 then .ok (some 16)
  else if enc = 0x5 then .ok (some 20)
  else if enc = 0x6 then .ok (some 24)
  else .decodeErr "Bits per sample set to reserved value."

/-- The `channel_assignment` match of `read_frame_header`. -/
def resolveChannels (enc : Nat) : DecodeResult ChannelAssignment :=
  if enc ≤ 0x7 then .ok (.independant (enc + 1))
  else if enc = 0x8 then .ok .leftSide
  else if enc = 0x9 then .ok .rightSide
  else if enc = 0xa then .ok .midSide
  else .decodeErr "Channel assignment set to reserved value."

/-- The body of `read_frame_header` from `framing.rs` after the sync scan:
descriptor word, UTF-8-style block/sample counter (whose `Option` result is
`unwrap()`ed — `none` panics), field resolution, and the final CRC-8
comparison against the next raw byte.  `p` is the sync word paired with the
reader state (including the running CRC-8) left by the scan. -/
def frame_header_after_sync (p : Nat × ByteCrcState) : DecodeResult (FrameHeader × ByteCrcState) :=
  let sync := p.1
  let blocking_strategy :=
    if sync &&& 1 = 0 then BlockingStrategy.fixedBlocks else BlockingStrategy.variableBlocks
  (readBeU16 p.2).bind fun pd =>
  let desc := pd.1
  let block_size_enc := (desc &&& 0xf000) >>> 12
  let sample_rate_enc := (desc &&& 0x0f00) >>> 8
  let channels_enc := (desc &&& 0x00f0) >>> 4
  let bits_per_sample_enc := (desc &&& 0x000e) >>> 1
  (utf8_decode_be_u64 pd.2).bind fun pc =>
  match pc.1 with
  | none => .panicked
  | some frame =>
    (match blocking_strategy with
     | .fixedBlocks =>
       if 0x7fffffff < frame then
         DecodeResult.decodeErr "Frame sequence number exceeds 31-bits."
       else .ok (BlockSequence.byFrame frame)
     | .variableBlocks => .ok (BlockSequence.bySample frame)
    ).bind fun block_sequence =>
    (resolveBlockSize block_size_enc pc.2).bind fun pb =>
    (resolveSampleRate sample_rate_enc pb.2).bind fun pr =>
    (resolveBitsPerSample bits_per_sample_enc).bind fun bits_per_sample =>
    (resolveChannels channels_enc).bind fun channel_assignment =>
    let crc8_computed := pr.2.crc
    (readU8Raw pr.2).bind fun pe =>
    if pe.1 ≠ crc8_computed then
      .decodeErr "Computed frame header CRC does not match expected CRC."
    else
      .ok ({ blocking_strategy := blocking_strategy,
             block_sequence := block_sequence,
             block_num_samples := pb.1,
             sample_rate := pr.1,
             channel_assignment := channel_assignment,
             bits_per_sample := bits_per_sample }, pe.2)

/-- `read_frame_header` from `framing.rs`, on a raw byte stream: the sync
scan (through the CRC-8 accumulator) followed by the rest of the header
parse. -/
def read_frame_header (bytes : List Nat) : DecodeResult (FrameHeader × ByteCrcState) :=
  (syncScan 0 bytes).bind frame_header_after_sync

/-- Modelled from the spec: the external bit reader's single-bit read
(MSB-first over a boolean stream). -/
def readBit : List Bool → DecodeResult (Bool × List Bool)
  | [] => .ioErr
  | b :: r => .ok (b, r)

def takeBitsAux : Nat → Nat → List Bool → DecodeResult (Nat × List Bool)
  | 0, acc, bs => .ok (acc, bs)
  | _ + 1, _, [] => .ioErr
  | k + 1, acc, b :: r => takeBitsAux k (acc * 2 + (if b then 1 else 0)) r

/-- Modelled from the spec: the external bit reader's `read_bits_leq32` — an
arbitrary-width unsigned read whose contract is a width of at most 32 bits;
calling it with a larger width violates the reader's contract (`panicked`). -/
def readBitsLeq32 (n : Nat) (bs : List Bool) : DecodeResult (Nat × List Bool) :=
  if 32 < n then .panicked else takeBitsAux n 0 bs

/-- Modelled from the spec: the external bit reader's `read_unary` — the
number of zero bits before a terminating one bit (terminator consumed). -/
def readUnary : List Bool → DecodeResult (Nat × List Bool)
  | [] => .ioErr
  | true :: r => .ok (0, r)
  | false :: r => (readUnary r).bind fun p => .ok (p.1 + 1, p.2)

/-- Modelled from the spec: the external `sign_extend_leq32_to_i32` —
exact-width sign extension: interpret the low `bits` bits as a two's
complement value. -/
def sign_extend_leq32_to_i32 (v : Nat) (bits : Nat) : Int :=
  if bits = 0 then 0
  else if v < 2 ^ (bits - 1) then (v : Int) else (v : Int) - 2 ^ bits

/-- Rice-coded residual loop of `decode_rice_partition`: per residual, a
unary quotient, `rice_param` remainder bits, codeword `(q << rice_param) | r`
(u32 shift), mapped through `rice_signed_to_i32`. -/
def riceResiduals (riceParam : Nat) : Nat → List Bool → DecodeResult (List Int × List Bool)
  | 0, bs => .ok ([], bs)
  | k + 1, bs =>
    (readUnary bs).bind fun pq =>
    (readBitsLeq32 riceParam pq.2).bind fun pr =>
    (riceResiduals riceParam k pr.2).bind fun pl =>
    .ok (rice_signed_to_i32 (((pq.1 <<< riceParam) % 4294967296) ||| pr.1) :: pl.1, pl.2)

/-- Escape-coded residual loop of `decode_rice_partition`: fixed-width
sign-extended binary residuals. -/
def binaryResiduals (residualBits : Nat) : Nat → List Bool → DecodeResult (List Int × List Bool)
  | 0, bs => .ok ([], bs)
  | k + 1, bs =>
    (readBitsLeq32 residualBits bs).bind fun pv =>
    (binaryResiduals residualBits k pv.2).bind fun pl =>
    .ok (sign_extend_leq32_to_i32 pv.1 residualBits :: pl.1, pl.2)

/-- `decode_rice_partition` from `framing.rs`: read the Rice parameter; the
all-ones parameter escapes to binary coding with an explicit 5-bit width. -/
def decode_rice_partition (paramBitWidth len : Nat) (bs : List Bool) : DecodeResult (List Int × List Bool) :=
  (readBitsLeq32 paramBitWidth bs).bind fun pp =>
  if pp.1 < (1 <<< paramBitWidth) - 1 then riceResiduals pp.1 len pp.2
  else
    (readBitsLeq32 5 pp.2).bind fun pb =>
    binaryResiduals pb.1 len pb.2

/-- The partition-arithmetic checks of `decode_residual`: `n_partitions = 1 <<
order`, `n_partition_samples = buf.len() >> order`; error if the first
partition would be smaller than the prelude (warm-up) count, or if
`n_partitions * n_partition_samples != buf.len()`. -/
def residual_partition_plan (nPreludeSamples bufLen order : Nat) : DecodeResult Nat :=
  let nPartitions := 1 <<< order
  let nPartitionSamples := bufLen >>> order
  if nPartitionSamples < nPreludeSamples then
    .decodeErr "Residual partition too small for given predictor order."
  else if nPartitions * nPartitionSamples ≠ bufLen then
    .decodeErr "Block size is not same as encoded residual."
  else .ok nPartitionSamples

/-- The remaining-partitions loop of `decode_residual` (`chunks_mut` over
`buf[n_partition_samples..]`, each chunk of `n_partition_samples` samples). -/
def ricePartitionsLoop (paramBitWidth nPartitionSamples : Nat) :
    Nat → List Bool → DecodeResult (List Int × List Bool)
  | 0, bs => .ok ([], bs)
  | k + 1, bs =>
    (decode_rice_partition paramBitWidth nPartitionSamples bs).bind fun pp =>
    (ricePartitionsLoop paramBitWidth nPartitionSamples k pp.2).bind fun pl =>
    .ok (pp.1 ++ pl.1, pl.2)

/-- `decode_residual` from `framing.rs`: 2-bit method, 4-bit partition order,
partition-arithmetic checks, then the shortened first partition followed by
the full-size remaining partitions (`chunks_mut(0)` on an empty buffer is a
Rust panic, modelled by `panicked`). -/
def decode_residual (nPreludeSamples : Nat) (buf : List Int) (bs : List Bool) :
    DecodeResult (List Int × List Bool) :=
  (readBitsLeq32 2 bs).bind fun pm =>
  (match pm.1 with
   | 0 => DecodeResult.ok 4
   | 1 => DecodeResult.ok 5
   | _ => DecodeResult.decodeErr "Residual method set to reserved value."
  ).bind fun paramBitWidth =>
  (readBitsLeq32 4 pm.2).bind fun po =>
  (residual_partition_plan nPreludeSamples buf.length po.1).bind fun nPartitionSamples =>
  (decode_rice_partition paramBitWidth (nPartitionSamples - nPreludeSamples) po.2).bind fun p1 =>
  if nPartitionSamples = 0 then .panicked
  else
    (ricePartitionsLoop paramBitWidth nPartitionSamples
        (buf.length / nPartitionSamples - 1) p1.2).bind fun pr =>
    .ok (buf.take nPreludeSamples ++ p1.1 ++ pr.1, pr.2)

/-- Wraparound into the `i64` range (Rust release-mode `i64` addition). -/
def wrap64 (z : Int) : Int :=
  (z + 9223372036854775808) % 18446744073709551616 - 9223372036854775808

/-- The coefficient/sample dot product of `lpc_predict`: products are exact
(`i32 as i64` products cannot overflow `i64`), summed with `i64` addition. -/
def lpcDot (cs ss : List Int) : Int :=
  (List.zipWith (fun c s => c * s) cs ss).foldl (fun a b => wrap64 (a + b)) 0

/-- `lpc_predict` from `framing.rs`: a prefill loop using the top `order`
coefficients until 32 history samples exist, then the steady-state 32-tap
loop; each prediction is shifted right arithmetically by `coeff_shift`,
truncated to `i32`, and added to the stored residual. -/
def lpc_predict (order : Nat) (coeffs : List Int) (coeff_shift : Nat) (buf : List Int) : List Int :=
  let nPrefill := min 32 buf.length - order
  let buf1 := predictLoop
    (fun b i => wadd (b.getD i 0)
      (wrap32 ((lpcDot (coeffs.drop (32 - order)) ((b.drop (i - order)).take order)) / 2 ^ coeff_shift)))
    nPrefill order buf
  if buf.length ≤ 32 then buf1
  else predictLoop
    (fun b i => wadd (b.getD i 0)
      (wrap32 ((lpcDot coeffs ((b.drop (i - 32)).take 32)) / 2 ^ coeff_shift)))
    (buf.length - 32) 32 buf1

/-- `decode_constant` from `framing.rs`: one sign-extended sample broadcast to
the whole destination slice. -/
def decode_constant (bps len : Nat) (bs : List Bool) : DecodeResult (List Int × List Bool) :=
  (readBitsLeq32 bps bs).bind fun p =>
  .ok (List.replicate len (sign_extend_leq32_to_i32 p.1 bps), p.2)

/-- `decode_verbatim` from `framing.rs`: one independently sign-extended
sample per destination slot. -/
def decode_verbatim (bps : Nat) : Nat → List Bool → DecodeResult (List Int × List Bool)
  | 0, bs => .ok ([], bs)
  | k + 1, bs =>
    (readBitsLeq32 bps bs).bind fun p =>
    (decode_verbatim bps k p.2).bind fun pl =>
    .ok (sign_extend_leq32_to_i32 p.1 bps :: pl.1, pl.2)

/-- `decode_fixed_linear` from `framing.rs`: verbatim warm-up of `order`
samples (slicing `buf[..order]` panics when `order` exceeds the buffer),
residuals, then the fixed predictor. -/
def decode_fixed_linear (bps order bufLen : Nat) (bs : List Bool) : DecodeResult (List Int × List Bool) :=
  if bufLen < order then .panicked
  else
    (decode_verbatim bps order bs).bind fun pw =>
    (decode_residual order (pw.1 ++ List.replicate (bufLen - order) 0) pw.2).bind fun pb =>
    .ok (fixed_predict order pb.1, pb.2)

/-- The coefficient-reading loop of `decode_linear`, in bitstream order. -/
def readQlpCoeffs (precision : Nat) : Nat → List Bool → DecodeResult (List Int × List Bool)
  | 0, bs => .ok ([], bs)
  | k + 1, bs =>
    (readBitsLeq32 precision bs).bind fun p =>
    (readQlpCoeffs precision k p.2).bind fun pl =>
    .ok (sign_extend_leq32_to_i32 p.1 precision :: pl.1, pl.2)

/-- `decode_linear` from `framing.rs`: verbatim warm-up, 4-bit precision field
plus one (a value above 15 is a decode error), signed 5-bit coefficient
shift, `order` coefficients written into a 32-slot array from index 31
downwards (so the array is `(32-order)` zeros followed by the reversed read
order), residuals, and finally the LPC predictor — unless the shift is
negative, which is an unsupported-feature error. -/
def decode_linear (bps order bufLen : Nat) (bs : List Bool) : DecodeResult (List Int × List Bool) :=
  if bufLen < order then .panicked
  else
    (decode_verbatim bps order bs).bind fun pw =>
    (readBitsLeq32 4 pw.2).bind fun pp =>
    let qlp_precision := pp.1 + 1
    if 15 < qlp_precision then .decodeErr "QLP precision set to reserved value."
    else
      (readBitsLeq32 5 pp.2).bind fun ps =>
      let qlp_coeff_shift := sign_extend_leq32_to_i32 ps.1 5
      (readQlpCoeffs qlp_precision order ps.2).bind fun pcf =>
      let qlp_coeffs := List.replicate (32 - order) 0 ++ pcf.1.reverse
      (decode_residual order (pw.1 ++ List.replicate (bufLen - order) 0) pcf.2).bind fun pb =>
      if 0 ≤ qlp_coeff_shift then
        .ok (lpc_predict order qlp_coeffs qlp_coeff_shift.toNat pb.1, pb.2)
      else .unsupportedErr "LPC shifts less than 0 are not supported."

inductive SubFrameType where
  | constant
  | verbatim
  | fixedLinear : Nat → SubFrameType
  | linear : Nat → SubFrameType
  deriving DecidableEq

/-- The subframe-type match of `read_subframe`. -/
def resolveSubframeType (enc : Nat) : DecodeResult SubFrameType :=
  if enc = 0x00 then .ok .constant
  else if enc = 0x01 then .ok .verbatim
  else if 0x08 ≤ enc ∧ enc ≤ 0x0f then
    let order := enc &&& 0x07
    if 4 < order then .decodeErr "Fixed predictor orders of greater than 4 are invalid."
    else .ok (.fixedLinear order)
  else if 0x20 ≤ enc ∧ enc ≤ 0x3f then .ok (.linear ((enc &&& 0x1f) + 1))
  else .decodeErr "Subframe type set to reserved value."

/-- Wrapping `u32` subtraction (Rust release-mode `u32` `-`). -/
def usub32 (a b : Nat) : Nat :=
  (4294967296 + a % 4294967296 - b % 4294967296) % 4294967296

/-- `samples_shl` from `framing.rs`: left-shift every sample by `shift` using
`wrapping_shl` (which masks the shift amount mod 32). -/
def samples_shl (shift : Nat) (buf : List Int) : List Int :=
  if 0 < shift then buf.map (fun sample => wrap32 (sample * 2 ^ (shift % 32))) else buf

/-- `read_subframe` from `framing.rs`: padding bit, 6-bit type, wasted-bits
flag and unary count, `bps = frame_bps - dropped_bps` (an unchecked `u32`
subtraction), dispatch, then `samples_shl`. -/
def read_subframe (frame_bps : Nat) (bufLen : Nat) (bs : List Bool) :
    DecodeResult (List Int × List Bool) :=
  (readBit bs).bind fun pp =>
  if pp.1 = true then .decodeErr "Subframe padding is not 0."
  else
    (readBitsLeq32 6 pp.2).bind fun pt =>
    (resolveSubframeType pt.1).bind fun subframe_type =>
    (readBit pt.2).bind fun pw =>
    ((if pw.1 then readUnary pw.2 else .ok (0, pw.2)) :
        DecodeResult (Nat × List Bool)).bind fun pd =>
    let dropped_bps := pd.1
    let bps := usub32 frame_bps dropped_bps
    (match subframe_type with
     | .constant => decode_constant bps bufLen pd.2
     | .verbatim => decode_verbatim bps bufLen pd.2
     | .fixedLinear order => decode_fixed_linear bps order bufLen pd.2
     | .linear order => decode_linear bps order bufLen pd.2
    ).bind fun pb =>
    .ok (samples_shl dropped_bps pb.1, pb.2)

theorem readU8_lt {s : ByteCrcState} {v : Nat} {s1 : ByteCrcState}
    (h : readU8 s = .ok (v, s1)) : v < 256 := by
  unfold readU8 at h
  split at h
  · exact absurd h (by simp)
  · simp only [DecodeResult.ok.injEq, Prod.mk.injEq] at h
    omega

theorem readBeU16_lt {s : ByteCrcState} {v : Nat} {s1 : ByteCrcState}
    (h : readBeU16 s = .ok (v, s1)) : v < 65536 := by
  unfold readBeU16 at h
  cases h1 : readU8 s with
  | ok p1 =>
    rw [h1] at h
    simp only [DecodeResult.bind] at h
    cases h2 : readU8 p1.2 with
    | ok p2 =>
      rw [h2] at h
      simp only [DecodeResult.bind, DecodeResult.ok.injEq, Prod.mk.injEq] at h
      have hb1 := readU8_lt h1
      have hb2 := readU8_lt h2
      omega
    | decodeErr m => rw [h2] at h; exact absurd h (by simp [DecodeResult.bind])
    | unsupportedErr m => rw [h2] at h; exact absurd h (by simp [DecodeResult.bind])
    | ioErr => rw [h2] at h; exact absurd h (by simp [DecodeResult.bind])
    | panicked => rw [h2] at h; exact absurd h (by simp [DecodeResult.bind])
  | decodeErr m => rw [h1] at h; exact absurd h (by simp [DecodeResult.bind])
  | unsupportedErr m => rw [h1] at h; exact absurd h (by simp [DecodeResult.bind])
  | ioErr => rw [h1] at h; exact absurd h (by simp [DecodeResult.bind])
  | panicked => rw [h1] at h; exact absurd h (by simp [DecodeResult.bind])

/-- C4 counterexample: block-size code 0x9 resolves to 512 (the `256·2^n`
family), not 4608 as the claim's example states. -/
theorem resolveBlockSize_code9_counterexample :
    resolveBlockSize 0x9 ⟨[], 0⟩ = .ok (512, ⟨[], 0⟩) ∧ (512 : Nat) ≠ 4608 := by
  constructor
  · rfl
  · decide

/-- C4 (amended): the block-size table of `read_frame_header`: code 0x1 gives
192; codes 0x2-0x5 give `576·2^(n-2)`; codes 0x8-0xf give `256·2^(n-8)` (so
code 0x9 gives 512); code 0x6 reads an 8-bit field and adds one; code 0x7
reads a 16-bit field and adds one in `u16` arithmetic (mod 2^16, so field
0xFFFF yields 0); the only other code, 0x0, is a decode error. -/
theorem resolveBlockSize_table (s : ByteCrcState) :
    resolveBlockSize 0x1 s = .ok (192, s) ∧
    (∀ n, 2 ≤ n → n ≤ 5 → resolveBlockSize n s = .ok (576 * 2 ^ (n - 2), s)) ∧
    (∀ n, 8 ≤ n → n ≤ 15 → resolveBlockSize n s = .ok (256 * 2 ^ (n - 8), s)) ∧
    (∀ v s1, readU8 s = .ok (v, s1) → resolveBlockSize 0x6 s = .ok (v + 1, s1)) ∧
    (∀ v s1, readBeU16 s = .ok (v, s1) →
      resolveBlockSize 0x7 s = .ok ((v + 1) % 65536, s1)) ∧
    resolveBlockSize 0x0 s = .decodeErr "Block size set to reserved value." := by
  refine ⟨rfl, ?_, ?_, ?_, ?_, rfl⟩
  · intro n h1 h2
    interval_cases n <;> rfl
  · intro n h1 h2
    interval_cases n <;> rfl
  · intro v s1 h
    have hv := readU8_lt h
    have hmod : (v + 1) % 65536 = v + 1 := by omega
    simp only [resolveBlockSize]
    norm_num
    rw [h]
    simp only [DecodeResult.bind, hmod]
  · intro v s1 h
    simp only [resolveBlockSize]
    norm_num
    rw [h]
    simp only [DecodeResult.bind]

/-- Witness for C4 at code 0x7 over the concrete byte stream `[0, 0]`. -/
theorem resolveBlockSize_table_witness :
    readBeU16 ⟨[0, 0], 0⟩ = .ok (0, ⟨[], 0⟩) ∧
    resolveBlockSize 0x7 ⟨[0, 0], 0⟩ = .ok ((0 + 1) % 65536, ⟨[], 0⟩) :=
  ⟨by decide, (resolveBlockSize_table ⟨[0, 0], 0⟩).2.2.2.2.1 0 ⟨[], 0⟩ (by decide)⟩

/-- C8: the sample-rate resolution of `read_frame_header`: code 0x0 defers to
the stream default; codes 0x1-0xb follow the fixed table (0x9 is 44100, 0xa
is 48000); code 0xc reads an 8-bit rate, 0xd a 16-bit rate, 0xe a 16-bit
value scaled by 10; code 0xf is a decode error; and a resolved explicit rate
outside `[1, 655350]` (which for these field widths can only be 0) is a
decode error. -/
theorem resolveSampleRate_table (s : ByteCrcState) :
    resolveSampleRate 0x0 s = .ok (none, s) ∧
    resolveSampleRate 0x1 s = .ok (some 88200, s) ∧
    resolveSampleRate 0x2 s = .ok (some 176400, s) ∧
    resolveSampleRate 0x3 s = .ok (some 192000, s) ∧
    resolveSampleRate 0x4 s = .ok (some 8000, s) ∧
    resolveSampleRate 0x5 s = .ok (some 16000, s) ∧
    resolveSampleRate 0x6 s = .ok (some 22050, s) ∧
    resolveSampleRate 0x7 s = .ok (some 24000, s) ∧
    resolveSampleRate 0x8 s = .ok (some 32000, s) ∧
    resolveSampleRate 0x9 s = .ok (some 44100, s) ∧
    resolveSampleRate 0xa s = .ok (some 48000, s) ∧
    resolveSampleRate 0xb s = .ok (some 96000, s) ∧
    (∀ v s1, readU8 s = .ok (v, s1) →
      resolveSampleRate 0xc s =
        if v < 1 then .decodeErr "Sample rate out of bounds." else .ok (some v, s1)) ∧
    (∀ v s1, readBeU16 s = .ok (v, s1) →
      resolveSampleRate 0xd s =
        if v < 1 then .decodeErr "Sample rate out of bounds." else .ok (some v, s1)) ∧
    (∀ v s1, readBeU16 s = .ok (v, s1) →
      resolveSampleRate 0xe s =
        if v < 1 then .decodeErr "Sample rate out of bounds."
        else .ok (some (v * 10), s1)) ∧
    resolveSampleRate 0xf s = .decodeErr "Sample rate set to reserved value." := by
  refine ⟨rfl, rfl, rfl, rfl, rfl, rfl, rfl, rfl, rfl, rfl, rfl, rfl, ?_, ?_, ?_, rfl⟩
  · intro v s1 h
    have hv := readU8_lt h
    simp only [resolveSampleRate]
    norm_num
    rw [h]
    simp only [DecodeResult.bind]
    rcases Nat.eq_zero_or_pos v with hv0 | hv0
    · subst hv0
      norm_num
    · rw [if_neg (by omega), if_neg (by omega)]
  · intro v s1 h
    have hv := readBeU16_lt h
    simp only [resolveSampleRate]
    norm_num
    rw [h]
    simp only [DecodeResult.bind]
    rcases Nat.eq_zero_or_pos v with hv0 | hv0
    · subst hv0
      norm_num
    · rw [if_neg (by omega), if_neg (by omega)]
  · intro v s1 h
    have hv := readBeU16_lt h
    simp only [resolveSampleRate]
    norm_num
    rw [h]
    simp only [DecodeResult.bind]
    rcases Nat.eq_zero_or_pos v with hv0 | hv0
    · subst hv0
      norm_num
    · rw [if_neg (by omega), if_neg (by omega)]

/-- Witness for C8 at code 0xe over the concrete byte stream `[0, 0]` (an
explicit rate of 0, rejected by the bounds check). -/
theorem resolveSampleRate_table_witness :
    readBeU16 ⟨[0, 0], 0⟩ = .ok (0, ⟨[], 0⟩) ∧
    resolveSampleRate 0xe ⟨[0, 0], 0⟩ =
      if 0 < 1 then .decodeErr "Sample rate out of bounds."
      else .ok (some (0 * 10), ⟨[], 0⟩) :=
  ⟨by decide, (resolveSampleRate_table ⟨[0, 0], 0⟩).2.2.2.2.2.2.2.2.2.2.2.2.2.2.1 0 ⟨[], 0⟩ (by decide)⟩

/-- MSB-first bit encoding of the low `w` bits of a natural number. -/
def natToBits : Nat → Nat → List Bool
  | 0, _ => []
  | w + 1, v => v.testBit w :: natToBits w v

theorem takeBitsAux_natToBits (w : Nat) :
    ∀ (v acc : Nat) (t : List Bool),
      takeBitsAux w acc (natToBits w v ++ t) = .ok (acc * 2 ^ w + v % 2 ^ w, t) := by
  induction w with
  | zero =>
    intro v acc t
    simp [natToBits, takeBitsAux, Nat.mod_one]
  | succ w ih =>
    intro v acc t
    simp only [natToBits, List.cons_append, takeBitsAux]
    rw [List.append_eq, ih]
    have hm : v % 2 ^ (w + 1) = 2 ^ w * (v / 2 ^ w % 2) + v % 2 ^ w := by
      rw [pow_succ, Nat.mod_mul]
      ring
    have ht : v.testBit w = decide (v / 2 ^ w % 2 = 1) := Nat.testBit_to_div_mod
    cases hbit : v.testBit w with
    | false =>
      have h2 : v / 2 ^ w % 2 = 0 := by
        rw [ht] at hbit
        simp at hbit
        omega
      rw [hm, h2]
      simp only [Bool.false_eq_true, if_false, DecodeResult.ok.injEq, Prod.mk.injEq]
      refine ⟨?_, trivial⟩
      rw [pow_succ]
      ring
    | true =>
      have h2 : v / 2 ^ w % 2 = 1 := by
        rw [ht] at hbit
        simpa using hbit
      rw [hm, h2]
      simp only [if_true, DecodeResult.ok.injEq, Prod.mk.injEq]
      refine ⟨?_, trivial⟩
      rw [pow_succ]
      ring

theorem readBitsLeq32_natToBits {w : Nat} (hw : w ≤ 32) (v : Nat) (t : List Bool) :
    readBitsLeq32 w (natToBits w v ++ t) = .ok (v % 2 ^ w, t) := by
  unfold readBitsLeq32
  rw [if_neg (by omega), takeBitsAux_natToBits]
  simp

/-- C3 counterexample: with `block_size = 4`, `partition_order = 0` and
`predictor_order = 4` the claim's condition `block_size/2^order >
predictor_order` fails (4 is not greater than 4), so the claim demands a
decode error; the code accepts this configuration (the first partition is
simply empty) and `decode_residual` succeeds. -/
theorem decode_residual_strict_bound_counterexample :
    (4 % 2 ^ 0 = 0 ∧ ¬(4 / 2 ^ 0 > 4)) ∧
    decode_residual 4 [0, 0, 0, 0]
      [false, false, false, false, false, false, false, false, false, false] =
      .ok ([0, 0, 0, 0], []) := by
  constructor
  · decide
  · rfl

/-- C3 (amended): for `block_size % 2^order = 0` and `block_size / 2^order ≥
predictor_order`, the partition arithmetic of `decode_residual` succeeds, and
the partition lengths — the first partition shortened by the predictor order
but counted together with the warm-up samples, plus `2^order - 1` full
partitions — sum to `block_size`; when either condition fails,
`decode_residual` returns one of the two consistency decode errors before
reading any residual (the result does not depend on the remaining bits). -/
theorem decode_residual_partition_invariant (blockSize p nPrelude : Nat) (hp : p < 16) :
    (blockSize % 2 ^ p = 0 → nPrelude ≤ blockSize / 2 ^ p →
      residual_partition_plan nPrelude blockSize p = .ok (blockSize >>> p) ∧
      nPrelude + ((blockSize >>> p) - nPrelude) + ((1 <<< p) - 1) * (blockSize >>> p)
        = blockSize) ∧
    (¬(blockSize % 2 ^ p = 0 ∧ nPrelude ≤ blockSize / 2 ^ p) →
      ∀ (buf : List Int) (b : Bool) (tail : List Bool), buf.length = blockSize →
        decode_residual nPrelude buf (false :: b :: (natToBits 4 p ++ tail)) =
          .decodeErr "Residual partition too small for given predictor order." ∨
        decode_residual nPrelude buf (false :: b :: (natToBits 4 p ++ tail)) =
          .decodeErr "Block size is not same as encoded residual.") := by
  have hshift : blockSize >>> p = blockSize / 2 ^ p := Nat.shiftRight_eq_div_pow _ _
  have hshl : (1 : Nat) <<< p = 2 ^ p := by
    rw [Nat.shiftLeft_eq]
    omega
  have hppos : (0 : Nat) < 2 ^ p := Nat.pos_pow_of_pos p (by omega)
  constructor
  · intro hdvd hle
    have hcancel : 2 ^ p * (blockSize / 2 ^ p) = blockSize :=
      Nat.mul_div_cancel' (Nat.dvd_of_mod_eq_zero hdvd)
    constructor
    · unfold residual_partition_plan
      rw [hshift, hshl]
      rw [if_neg (by omega), if_neg (by omega)]
    · rw [hshift, hshl, Nat.sub_mul]
      have hq : blockSize / 2 ^ p ≤ 2 ^ p * (blockSize / 2 ^ p) :=
        Nat.le_mul_of_pos_left _ hppos
      omega
  · intro hcond buf b tail hlen
    have hplan : residual_partition_plan nPrelude buf.length p =
        .decodeErr "Residual partition too small for given predictor order." ∨
        residual_partition_plan nPrelude buf.length p =
        .decodeErr "Block size is not same as encoded residual." := by
      unfold residual_partition_plan
      rw [hlen, hshift, hshl]
      by_cases hfirst : blockSize / 2 ^ p < nPrelude
      · left
        rw [if_pos hfirst]
      · right
        rw [if_neg hfirst]
        have hndvd : ¬ (2 ^ p ∣ blockSize) := by
          intro hd
          exact hcond ⟨Nat.eq_zero_of_dvd_of_lt hd |> fun _ => Nat.mod_eq_zero_of_dvd hd, by omega⟩
        rw [if_pos (by
          intro heq
          exact hndvd ⟨blockSize / 2 ^ p, heq.symm⟩)]
    have hread2 : readBitsLeq32 2 (false :: b :: (natToBits 4 p ++ tail)) =
        .ok (if b then 1 else 0, natToBits 4 p ++ tail) := by
      cases b <;> rfl
    have hread4 : readBitsLeq32 4 (natToBits 4 p ++ tail) = .ok (p, tail) := by
      rw [readBitsLeq32_natToBits (by omega)]
      rw [Nat.mod_eq_of_lt (by omega)]
    unfold decode_residual
    rw [hread2]
    simp only [DecodeResult.bind]
    cases b
    · simp only [if_false, Bool.false_eq_true]
      rw [hread4]
      simp only [DecodeResult.bind]
      rcases hplan with hpl | hpl
      · rw [hpl]
        left
        rfl
      · rw [hpl]
        right
        rfl
    · simp only [if_true]
      rw [hread4]
      simp only [DecodeResult.bind]
      rcases hplan with hpl | hpl
      · rw [hpl]
        left
        rfl
      · rw [hpl]
        right
        rfl

/-- Witness for C3: `block_size = 8`, `partition_order = 1`,
`predictor_order = 4` (first partition empty). -/
theorem decode_residual_partition_invariant_witness :
    residual_partition_plan 4 8 1 = .ok (8 >>> 1) ∧
    4 + ((8 >>> 1) - 4) + ((1 <<< 1) - 1) * (8 >>> 1) = 8 :=
  (decode_residual_partition_invariant 8 1 4 (by decide)).1 (by decide) (by decide)

/-- C6: evaluating `read_subframe` on a frame bit width of 8 and a subframe
whose wasted-bits unary count is 9: the unchecked `u32` subtraction
`frame_bps - dropped_bps` wraps to `0xFFFFFFFF` (in a debug build it panics
outright), and that wrapped width is passed to the `≤ 32`-bit reader,
violating its contract — the decode does not fail with a structured error. -/
theorem read_subframe_wasted_bits_underflow :
    usub32 8 9 = 4294967295 ∧
    read_subframe 8 1 ([false] ++ [false, false, false, false, false, true] ++ [true] ++
      [false, false, false, false, false, false, false, false, false, true]) = .panicked := by
  constructor
  · rfl
  · rfl

/-- `x` is not an unsupported-feature error. -/
def NoUnsup {α : Type} (x : DecodeResult α) : Prop :=
  ∀ m, x ≠ DecodeResult.unsupportedErr m

theorem bind_unsup {α β : Type} {x : DecodeResult α} {f : α → DecodeResult β} {m : String}
    (h : x.bind f = .unsupportedErr m) :
    x = .unsupportedErr m ∨ ∃ a, x = .ok a ∧ f a = .unsupportedErr m := by
  cases x <;> simp [DecodeResult.bind] at h ⊢ <;> tauto

theorem noUnsup_ok {α : Type} (a : α) : NoUnsup (DecodeResult.ok a) :=
  fun _ h => DecodeResult.noConfusion h

theorem noUnsup_decodeErr {α : Type} (s : String) :
    NoUnsup (DecodeResult.decodeErr s : DecodeResult α) :=
  fun _ h => DecodeResult.noConfusion h

theorem noUnsup_ioErr {α : Type} : NoUnsup (DecodeResult.ioErr : DecodeResult α) :=
  fun _ h => DecodeResult.noConfusion h

theorem noUnsup_panicked {α : Type} : NoUnsup (DecodeResult.panicked : DecodeResult α) :=
  fun _ h => DecodeResult.noConfusion h

theorem noUnsup_bind {α β : Type} {x : DecodeResult α} {f : α → DecodeResult β}
    (hx : NoUnsup x) (hf : ∀ a, NoUnsup (f a)) : NoUnsup (x.bind f) := by
  intro m h
  rcases bind_unsup h with h1 | ⟨a, _, h2⟩
  · exact hx m h1
  · exact hf a m h2

theorem noUnsup_ite {α : Type} {c : Prop} [Decidable c] {x y : DecodeResult α}
    (hx : NoUnsup x) (hy : NoUnsup y) : NoUnsup (if c then x else y) := by
  split <;> assumption

theorem takeBitsAux_noUnsup : ∀ (n acc : Nat) (bs : List Bool), NoUnsup (takeBitsAux n acc bs) := by
  intro n
  induction n with
  | zero => intro acc bs; exact noUnsup_ok _
  | succ k ih =>
    intro acc bs
    cases bs with
    | nil => exact noUnsup_ioErr
    | cons b r => exact ih _ _

theorem readBitsLeq32_noUnsup (n : Nat) (bs : List Bool) : NoUnsup (readBitsLeq32 n bs) := by
  unfold readBitsLeq32
  exact noUnsup_ite noUnsup_panicked (takeBitsAux_noUnsup _ _ _)

theorem readBit_noUnsup (bs : List Bool) : NoUnsup (readBit bs) := by
  cases bs with
  | nil => exact noUnsup_ioErr
  | cons b r => exact noUnsup_ok _

theorem readUnary_noUnsup (bs : List Bool) : NoUnsup (readUnary bs) := by
  induction bs with
  | nil => exact noUnsup_ioErr
  | cons b r ih =>
    cases b with
    | false => exact noUnsup_bind ih (fun p => noUnsup_ok _)
    | true => exact noUnsup_ok _

theorem riceResiduals_noUnsup (param : Nat) :
    ∀ (k : Nat) (bs : List Bool), NoUnsup (riceResiduals param k bs) := by
  intro k
  induction k with
  | zero => intro bs; exact noUnsup_ok _
  | succ k ih =>
    intro bs
    exact noUnsup_bind (readUnary_noUnsup _) fun pq =>
      noUnsup_bind (readBitsLeq32_noUnsup _ _) fun pr =>
        noUnsup_bind (ih _) fun pl => noUnsup_ok _

theorem binaryResiduals_noUnsup (rb : Nat) :
    ∀ (k : Nat) (bs : List Bool), NoUnsup (binaryResiduals rb k bs) := by
  intro k
  induction k with
  | zero => intro bs; exact noUnsup_ok _
  | succ k ih =>
    intro bs
    exact noUnsup_bind (readBitsLeq32_noUnsup _ _) fun pv =>
      noUnsup_bind (ih _) fun pl => noUnsup_ok _

theorem decode_rice_partition_noUnsup (pw len : Nat) (bs : List Bool) :
    NoUnsup (decode_rice_partition pw len bs) := by
  unfold decode_rice_partition
  exact noUnsup_bind (readBitsLeq32_noUnsup _ _) fun pp =>
    noUnsup_ite (riceResiduals_noUnsup _ _ _)
      (noUnsup_bind (readBitsLeq32_noUnsup _ _) fun pb => binaryResiduals_noUnsup _ _ _)

theorem residual_partition_plan_noUnsup (a b c : Nat) :
    NoUnsup (residual_partition_plan a b c) := by
  unfold residual_partition_plan
  exact noUnsup_ite (noUnsup_decodeErr _) (noUnsup_ite (noUnsup_decodeErr _) (noUnsup_ok _))

theorem ricePartitionsLoop_noUnsup (pw nps : Nat) :
    ∀ (k : Nat) (bs : List Bool), NoUnsup (ricePartitionsLoop pw nps k bs) := by
  intro k
  induction k with
  | zero => intro bs; exact noUnsup_ok _
  | succ k ih =>
    intro bs
    exact noUnsup_bind (decode_rice_partition_noUnsup _ _ _) fun pp =>
      noUnsup_bind (ih _) fun pl => noUnsup_ok _

theorem residualMethodMatch_noUnsup (n : Nat) :
    NoUnsup ((match n with
      | 0 => DecodeResult.ok 4
      | 1 => DecodeResult.ok 5
      | _ => DecodeResult.decodeErr "Residual method set to reserved value.") :
        DecodeResult Nat) := by
  match n with
  | 0 => exact noUnsup_ok _
  | 1 => exact noUnsup_ok _
  | n + 2 => exact noUnsup_decodeErr _

theorem decode_residual_noUnsup (np : Nat) (buf : List Int) (bs : List Bool) :
    NoUnsup (decode_residual np buf bs) := by
  unfold decode_residual
  exact noUnsup_bind (readBitsLeq32_noUnsup _ _) fun pm =>
    noUnsup_bind (residualMethodMatch_noUnsup _) fun pwid =>
      noUnsup_bind (readBitsLeq32_noUnsup _ _) fun po =>
        noUnsup_bind (residual_partition_plan_noUnsup _ _ _) fun nps =>
          noUnsup_bind (decode_rice_partition_noUnsup _ _ _) fun p1 =>
            noUnsup_ite noUnsup_panicked
              (noUnsup_bind (ricePartitionsLoop_noUnsup _ _ _ _) fun pr => noUnsup_ok _)

theorem decode_verbatim_noUnsup (bps : Nat) :
    ∀ (k : Nat) (bs : List Bool), NoUnsup (decode_verbatim bps k bs) := by
  intro k
  induction k with
  | zero => intro bs; exact noUnsup_ok _
  | succ k ih =>
    intro bs
    exact noUnsup_bind (readBitsLeq32_noUnsup _ _) fun p =>
      noUnsup_bind (ih _) fun pl => noUnsup_ok _

theorem decode_constant_noUnsup (bps len : Nat) (bs : List Bool) :
    NoUnsup (decode_constant bps len bs) := by
  unfold decode_constant
  exact noUnsup_bind (readBitsLeq32_noUnsup _ _) fun p => noUnsup_ok _

theorem readQlpCoeffs_noUnsup (prec : Nat) :
    ∀ (k : Nat) (bs : List Bool), NoUnsup (readQlpCoeffs prec k bs) := by
  intro k
  induction k with
  | zero => intro bs; exact noUnsup_ok _
  | succ k ih =>
    intro bs
    exact noUnsup_bind (readBitsLeq32_noUnsup _ _) fun p =>
      noUnsup_bind (ih _) fun pl => noUnsup_ok _

theorem decode_fixed_linear_noUnsup (bps order bufLen : Nat) (bs : List Bool) :
    NoUnsup (decode_fixed_linear bps order bufLen bs) := by
  unfold decode_fixed_linear
  exact noUnsup_ite noUnsup_panicked
    (noUnsup_bind (decode_verbatim_noUnsup _ _ _) fun pw =>
      noUnsup_bind (decode_residual_noUnsup _ _ _) fun pb => noUnsup_ok _)

theorem resolveSubframeType_noUnsup (enc : Nat) : NoUnsup (resolveSubframeType enc) := by
  unfold resolveSubframeType
  exact noUnsup_ite (noUnsup_ok _) (noUnsup_ite (noUnsup_ok _)
    (noUnsup_ite (noUnsup_ite (noUnsup_decodeErr _) (noUnsup_ok _))
      (noUnsup_ite (noUnsup_ok _) (noUnsup_decodeErr _))))

theorem decode_linear_unsup_msg (bps order bufLen : Nat) (bs : List Bool) (m : String)
    (h : decode_linear bps order bufLen bs = .unsupportedErr m) :
    m = "LPC shifts less than 0 are not supported." := by
  unfold decode_linear at h
  split at h
  · exact DecodeResult.noConfusion h
  rcases bind_unsup h with h1 | ⟨pw, hpw, h⟩
  · exact absurd h1 (decode_verbatim_noUnsup _ _ _ _)
  rcases bind_unsup h with h1 | ⟨pp, hpp, h⟩
  · exact absurd h1 (readBitsLeq32_noUnsup _ _ _)
  simp only [] at h
  split at h
  · exact DecodeResult.noConfusion h
  rcases bind_unsup h with h1 | ⟨ps, hps, h⟩
  · exact absurd h1 (readBitsLeq32_noUnsup _ _ _)
  rcases bind_unsup h with h1 | ⟨pcf, hpcf, h⟩
  · exact absurd h1 (readQlpCoeffs_noUnsup _ _ _ _)
  rcases bind_unsup h with h1 | ⟨pb, hpb, h⟩
  · exact absurd h1 (decode_residual_noUnsup _ _ _ _)
  split at h
  · exact DecodeResult.noConfusion h
  · injection h with h'
    exact h'.symm

/-- C7: in `decode_linear`, a quantized-coefficient precision decoding above
15 is a malformed-bitstream decode error; a negative coefficient shift — with
every other read and the residual decode succeeding — is an
unsupported-feature error; and the negative shift is the only source of
unsupported-feature errors, both in `decode_linear` and in the whole of
`read_subframe`. -/
theorem decode_linear_error_kinds :
    (∀ (bps order bufLen : Nat) (bs : List Bool) (m : String),
      decode_linear bps order bufLen bs = .unsupportedErr m →
      m = "LPC shifts less than 0 are not supported.") ∧
    (∀ (bps order bufLen : Nat) (bs : List Bool) (warm : List Int) (bs1 bs2 : List Bool),
      order ≤ bufLen →
      decode_verbatim bps order bs = .ok (warm, bs1) →
      readBitsLeq32 4 bs1 = .ok (15, bs2) →
      decode_linear bps order bufLen bs = .decodeErr "QLP precision set to reserved value.") ∧
    (∀ (bps order bufLen : Nat) (bs : List Bool) (warm : List Int) (bs1 : List Bool)
       (p : Nat) (bs2 : List Bool) (v : Nat) (bs3 : List Bool)
       (cfs : List Int) (bs4 : List Bool) (buf2 : List Int) (bs5 : List Bool),
      order ≤ bufLen →
      decode_verbatim bps order bs = .ok (warm, bs1) →
      readBitsLeq32 4 bs1 = .ok (p, bs2) →
      p + 1 ≤ 15 →
      readBitsLeq32 5 bs2 = .ok (v, bs3) →
      sign_extend_leq32_to_i32 v 5 < 0 →
      readQlpCoeffs (p + 1) order bs3 = .ok (cfs, bs4) →
      decode_residual order (warm ++ List.replicate (bufLen - order) 0) bs4 = .ok (buf2, bs5) →
      decode_linear bps order bufLen bs =
        .unsupportedErr "LPC shifts less than 0 are not supported.") ∧
    (∀ (frame_bps bufLen : Nat) (bs : List Bool) (m : String),
      read_subframe frame_bps bufLen bs = .unsupportedErr m →
      m = "LPC shifts less than 0 are not supported.") := by
  refine ⟨decode_linear_unsup_msg, ?_, ?_, ?_⟩
  · intro bps order bufLen bs warm bs1 bs2 hord hverb hprec
    unfold decode_linear
    rw [if_neg (by omega)]
    rw [hverb]
    simp only [DecodeResult.bind]
    rw [hprec]
    simp only [DecodeResult.bind]
    rw [if_pos (by omega)]
  · intro bps order bufLen bs warm bs1 p bs2 v bs3 cfs bs4 buf2 bs5
    intro hord hverb hprec hple hshift hneg hcoeffs hres
    unfold decode_linear
    rw [if_neg (by omega)]
    rw [hverb]
    simp only [DecodeResult.bind]
    rw [hprec]
    simp only [DecodeResult.bind]
    rw [if_neg (by omega)]
    rw [hshift]
    simp only [DecodeResult.bind]
    rw [hcoeffs]
    simp only [DecodeResult.bind]
    rw [hres]
    simp only [DecodeResult.bind]
    rw [if_neg (by omega)]
  · intro frame_bps bufLen bs m h
    unfold read_subframe at h
    rcases bind_unsup h with h1 | ⟨pp, hpp, h⟩
    · exact absurd h1 (readBit_noUnsup _ _)
    split at h
    · exact DecodeResult.noConfusion h
    rcases bind_unsup h with h1 | ⟨pt, hpt, h⟩
    · exact absurd h1 (readBitsLeq32_noUnsup _ _ _)
    rcases bind_unsup h with h1 | ⟨sft, hsft, h⟩
    · exact absurd h1 (resolveSubframeType_noUnsup _ _)
    rcases bind_unsup h with h1 | ⟨pw, hpw, h⟩
    · exact absurd h1 (readBit_noUnsup _ _)
    rcases bind_unsup h with h1 | ⟨pd, hpd, h⟩
    · split at h1
      · exact absurd h1 (readUnary_noUnsup _ _)
      · exact DecodeResult.noConfusion h1
    rcases bind_unsup h with h1 | ⟨pb, hpb, h⟩
    · cases sft with
      | constant => exact absurd h1 (decode_constant_noUnsup _ _ _ _)
      | verbatim => exact absurd h1 (decode_verbatim_noUnsup _ _ _ _)
      | fixedLinear o => exact absurd h1 (decode_fixed_linear_noUnsup _ _ _ _ _)
      | linear o => exact decode_linear_unsup_msg _ _ _ _ _ h1
    · exact DecodeResult.noConfusion h

/-- Witness for C7: a concrete one-sample LPC subframe payload whose 5-bit
shift field is 0b10000 (value -16): `decode_linear` reports the
unsupported-feature error. -/
theorem decode_linear_error_kinds_witness :
    decode_linear 1 1 1
      [true, false, false, false, false, true, false, false, false, false, false,
       false, false, false, false, false, false, false, false, false, false] =
      .unsupportedErr "LPC shifts less than 0 are not supported." :=
  decode_linear_error_kinds.2.2.1 1 1 1
    [true, false, false, false, false, true, false, false, false, false, false,
     false, false, false, false, false, false, false, false, false, false]
    [-1]
    [false, false, false, false, true, false, false, false, false, false,
     false, false, false, false, false, false, false, false, false, false]
    0
    [true, false, false, false, false, false, false, false, false, false,
     false, false, false, false, false, false]
    16
    [false, false, false, false, false, false, false, false, false, false, false]
    [0]
    [false, false, false, false, false, false, false, false, false, false]
    [-1] []
    (by decide) (by decide) (by decide) (by decide) (by decide) (by decide)
    (by decide) (by decide)

/-- C10: whenever the sync scan and descriptor read succeed and the UTF-8
style counter decode returns `Ok(None)` (a malformed multi-byte encoding),
`read_frame_header` panics on the `unwrap()` instead of returning a
structured decode error. -/
theorem read_frame_header_counter_none_panics (bytes : List Nat) (w d : Nat)
    (s1 s2 s3 : ByteCrcState)
    (hsync : syncScan 0 bytes = .ok (w, s1))
    (hdesc : readBeU16 s1 = .ok (d, s2))
    (hutf : utf8_decode_be_u64 s2 = .ok (none, s3)) :
    read_frame_header bytes = .panicked := by
  unfold read_frame_header frame_header_after_sync
  rw [hsync]
  simp only [DecodeResult.bind]
  rw [hdesc]
  simp only [DecodeResult.bind]
  rw [hutf]

set_option maxRecDepth 4000 in
set_option maxHeartbeats 1000000 in
/-- Witness for C10: sync word `0xFFF8`, descriptor `0x0000`, then the lone
continuation byte `0x80`, on which the counter decode yields `none`. -/
theorem read_frame_header_counter_none_panics_witness :
    syncScan 0 [0xFF, 0xF8, 0x00, 0x00, 0x80] = .ok (0xFFF8, ⟨[0x00, 0x00, 0x80], 49⟩) ∧
    readBeU16 ⟨[0x00, 0x00, 0x80], 49⟩ = .ok (0, ⟨[0x80], 236⟩) ∧
    utf8_decode_be_u64 ⟨[0x80], 236⟩ = .ok (none, ⟨[], 3⟩) ∧
    read_frame_header [0xFF, 0xF8, 0x00, 0x00, 0x80] = .panicked :=
  ⟨by decide, by decide, by decide,
   read_frame_header_counter_none_panics [0xFF, 0xF8, 0x00, 0x00, 0x80] 0xFFF8 0
     ⟨[0x00, 0x00, 0x80], 49⟩ ⟨[0x80], 236⟩ ⟨[], 3⟩ (by decide) (by decide) (by decide)⟩

/-- Flatten a list of 16-bit words into big-endian byte pairs. -/
def wordsToBytes : List Nat → List Nat
  | [] => []
  | w :: ws => w / 256 % 256 :: w % 256 :: wordsToBytes ws

theorem syncScan_skips : ∀ (ws : List Nat),
    (∀ w ∈ ws, w < 65536 ∧ w &&& 0xfffc ≠ 0xfff8) →
    ∀ (crc : Nat) (rest : List Nat),
      syncScan crc (wordsToBytes ws ++ rest) =
        syncScan (crc8Bytes crc (wordsToBytes ws)) rest := by
  intro ws
  induction ws with
  | nil =>
    intro _ crc rest
    simp [wordsToBytes, crc8Bytes]
  | cons w ws ih =>
    intro hws crc rest
    obtain ⟨hlt, hns⟩ := hws w (by simp)
    have hb0 : w / 256 % 256 % 256 = w / 256 % 256 := by omega
    have hb1 : w % 256 % 256 = w % 256 := by omega
    simp only [wordsToBytes, List.cons_append, syncScan]
    rw [hb0, hb1]
    have hrecon : w / 256 % 256 * 256 + w % 256 = w := by omega
    rw [hrecon, if_neg hns]
    rw [List.append_eq]
    rw [ih (fun w' hw' => hws w' (List.mem_cons_of_mem _ hw')) _ rest]
    simp only [crc8Bytes, List.foldl_cons]

/-- The header bytes covered by the CRC-8 of the concrete well-formed frame
header used to settle C9 (sync `0xFFF8`, descriptor `0x1908`, frame number
0). -/
def c9HeaderCore : List Nat := [0xFF, 0xF8, 0x19, 0x08, 0x00]

/-- The concrete header: CRC-8-covered bytes followed by the CRC byte 186. -/
def c9Header : List Nat := c9HeaderCore ++ [186]

/-- The parsed form of `c9Header`. -/
def c9FrameHeader : FrameHeader :=
  ⟨.fixedBlocks, .byFrame 0, 192, some 44100, .independant 1, some 16⟩

set_option maxRecDepth 4000 in
set_option maxHeartbeats 1000000 in
/-- C9 counterexample: the skipped non-sync word `0x0000` drives the
zero-initialized CRC-8 back to its initial state, so a well-formed header
preceded by it is accepted, not rejected. -/
theorem read_frame_header_zero_skip_counterexample :
    ((0 : Nat) &&& 0xfffc ≠ 0xfff8) ∧
    read_frame_header ([0x00, 0x00] ++ c9Header) = .ok (c9FrameHeader, ⟨[], 186⟩) ∧
    read_frame_header c9Header = .ok (c9FrameHeader, ⟨[], 186⟩) := by
  refine ⟨by decide, by decide, by decide⟩

set_option maxRecDepth 4000 in
set_option maxHeartbeats 1000000 in
/-- C9 (amended): words skipped by the sync scan are accumulated into the
header CRC-8, which is never reset during the scan, so the parse after
synchronization starts from — and its final CRC-8 comparison therefore
covers — the checksum state accumulated over the skipped bytes; whether a
well-formed header preceded by skipped non-sync data is accepted depends on
that accumulated state: the skipped word 0x1234 perturbs the CRC-8 and the
header is rejected with a header-CRC mismatch, while skipped data that
returns the CRC-8 to its initial state (such as a zero word) is accepted. -/
theorem read_frame_header_crc_covers_skipped (ws : List Nat)
    (hws : ∀ w ∈ ws, w < 65536 ∧ w &&& 0xfffc ≠ 0xfff8) :
    (∀ crc rest, syncScan crc (wordsToBytes ws ++ rest) =
      syncScan (crc8Bytes crc (wordsToBytes ws)) rest) ∧
    (∀ rest, read_frame_header (wordsToBytes ws ++ rest) =
      (syncScan (crc8Bytes 0 (wordsToBytes ws)) rest).bind frame_header_after_sync) ∧
    read_frame_header (wordsToBytes [0x1234] ++ c9Header) =
      .decodeErr "Computed frame header CRC does not match expected CRC." ∧
    read_frame_header c9Header = .ok (c9FrameHeader, ⟨[], 186⟩) := by
  refine ⟨syncScan_skips ws hws, ?_, by decide, by decide⟩
  intro rest
  unfold read_frame_header
  rw [syncScan_skips ws hws]

set_option maxRecDepth 4000 in
set_option maxHeartbeats 1000000 in
/-- Witness for C9 with the concrete skipped non-sync word `0x1234`. -/
theorem read_frame_header_crc_covers_skipped_witness :
    read_frame_header (wordsToBytes [0x1234] ++ c9Header) =
      (syncScan (crc8Bytes 0 (wordsToBytes [0x1234])) c9Header).bind frame_header_after_sync :=
  (read_frame_header_crc_covers_skipped [0x1234] (by decide)).2.1 c9Header

end FlacFraming
